import Mathlib

/-!
Verification of the housing-dashboard data pipeline
(`src/utils/data_loader.py`) against its natural-language specification.

The pandas code is shallowly embedded: a DataFrame in long format is a
`List Row`, the raw wide CSV is a `RawTable`, timestamps are represented
by the natural number formed from the digits of the date string (which
orders ISO date strings exactly like `pd.to_datetime` does), and nullable
float columns are `Option` types.
-/

/-- Models Python's `s.startswith(pre)`: `pre` is a prefix of the character
sequence of `s`.  (`String.startsWith` itself is avoided only because its
iterator-based implementation does not reduce in the kernel.) -/
def startswith (s pre : String) : Bool :=
  pre.data.isPrefixOf s.data

/-- Models `pd.to_datetime` on the date-like column names occurring in this
pipeline: the timestamp is represented by the natural number formed from the
digits of the string (YYYYMMDD for an ISO name such as "2020-01-31"), which
is ordered exactly like the corresponding calendar date and identifies the
same strings that `pd.to_datetime` identifies (e.g. "2020-01-31" and
"20200131" parse to the same timestamp). -/
def parseDate (s : String) : Nat :=
  (s.data.filter Char.isDigit).foldl (fun n c => n * 10 + (c.toNat - 48)) 0

/-- One record of the canonical long-format table produced by the pipeline
(columns `state`, `date`, `median_home_value`); per the data-model invariant
the value column is non-null, so it is a plain rational here. -/
structure Row where
  state : String
  date : Nat
  value : ℚ
deriving DecidableEq, Inhabited

/-- The module-level `STATE_CODES` dictionary of `data_loader.py`, built once
at import time: full region name to two-letter code. -/
def STATE_CODES : List (String × String) :=
  [("Alabama", "AL"), ("Alaska", "AK"), ("Arizona", "AZ"), ("Arkansas", "AR"),
   ("California", "CA"), ("Colorado", "CO"), ("Connecticut", "CT"),
   ("Delaware", "DE"), ("Florida", "FL"), ("Georgia", "GA"), ("Hawaii", "HI"),
   ("Idaho", "ID"), ("Illinois", "IL"), ("Indiana", "IN"), ("Iowa", "IA"),
   ("Kansas", "KS"), ("Kentucky", "KY"), ("Louisiana", "LA"), ("Maine", "ME"),
   ("Maryland", "MD"), ("Massachusetts", "MA"), ("Michigan", "MI"),
   ("Minnesota", "MN"), ("Mississippi", "MS"), ("Missouri", "MO"),
   ("Montana", "MT"), ("Nebraska", "NE"), ("Nevada", "NV"),
   ("New Hampshire", "NH"), ("New Jersey", "NJ"), ("New Mexico", "NM"),
   ("New York", "NY"), ("North Carolina", "NC"), ("North Dakota", "ND"),
   ("Ohio", "OH"), ("Oklahoma", "OK"), ("Oregon", "OR"),
   ("Pennsylvania", "PA"), ("Rhode Island", "RI"), ("South Carolina", "SC"),
   ("South Dakota", "SD"), ("Tennessee", "TN"), ("Texas", "TX"),
   ("Utah", "UT"), ("Vermont", "VT"), ("Virginia", "VA"),
   ("Washington", "WA"), ("West Virginia", "WV"), ("Wisconsin", "WI"),
   ("Wyoming", "WY"), ("District of Columbia", "DC"),
   ("American Samoa", "AS"), ("Guam", "GU"),
   ("Northern Mariana Islands", "MP"), ("Puerto Rico", "PR"),
   ("United States Minor Outlying Islands", "UM"),
   ("Virgin Islands, U.S.", "VI")]

/-- A long-format record after the enricher has run: the `state_code` column
added by `add_state_codes` is nullable (`df["state"].map(STATE_CODES)` yields
NaN for a name absent from the dictionary). -/
structure RowC where
  state : String
  date : Nat
  value : ℚ
  state_code : Option String
deriving DecidableEq, Inhabited

/-- Embeds `add_state_codes`: `df["state_code"] = df["state"].map(STATE_CODES)`,
a per-row dictionary lookup that yields null (here `none`) when the state name
is not a key. -/
def add_state_codes (df : List Row) : List RowC :=
  df.map (fun r =>
    { state := r.state, date := r.date, value := r.value,
      state_code := STATE_CODES.lookup r.state })

/-- Embeds the date-column selection of `load_zhvi_data`:
`[col for col in df.columns if col.startswith("20")]`. -/
def date_columns (cols : List String) : List String :=
  cols.filter (fun c => startswith c "20")

/-- Claim-side notion (from the spec's words): a column name beginning with a
4-digit year prefix, i.e. its first four characters exist and are digits. -/
def beginsWithFourDigitYear (c : String) : Bool :=
  decide (4 ≤ c.data.length) && (c.data.take 4).all Char.isDigit

/-- Truthiness of Python's `list | None` as used by `if states:` in
`filter_data`: `None` and the empty list are falsy. -/
def truthyList (o : Option (List String)) : Bool :=
  match o with
  | none => false
  | some l => !l.isEmpty

/-- Truthiness of Python's `str | None` as used by `if start_date:` in
`filter_data`: `None` and the empty string are falsy. -/
def truthyStr (o : Option String) : Bool :=
  match o with
  | none => false
  | some s => !s.data.isEmpty

/-- Embeds `filter_data(df, states, start_date, end_date)`: each constraint is
applied only when its argument is truthy; state filtering is membership in
`states`, date filtering is inclusive comparison against the parsed bound. -/
def filter_data (df : List Row) (states : Option (List String))
    (start_date end_date : Option String) : List Row :=
  let filtered := df
  let filtered := if truthyList states then
      filtered.filter (fun r => (states.getD []).contains r.state)
    else filtered
  let filtered := if truthyStr start_date then
      filtered.filter (fun r => decide (parseDate (start_date.getD "") ≤ r.date))
    else filtered
  let filtered := if truthyStr end_date then
      filtered.filter (fun r => decide (r.date ≤ parseDate (end_date.getD "")))
    else filtered
  filtered

/-- Lookup helper: in an association list whose keys are distinct, any listed
pair is found by `List.lookup`. -/
theorem lookup_eq_some_of_mem {l : List (String × String)} {a b : String}
    (hnd : (l.map Prod.fst).Nodup) (hm : (a, b) ∈ l) :
    l.lookup a = some b := by
  induction l with
  | nil => simp at hm
  | cons hd tl ih =>
    simp only [List.map_cons, List.nodup_cons] at hnd
    rcases List.mem_cons.1 hm with h | h
    · subst h
      simp [List.lookup]
    · have hne : a ≠ hd.1 := by
        intro he
        exact hnd.1 (he ▸ (List.mem_map.2 ⟨(a, b), h, rfl⟩))
      have : (a == hd.1) = false := by
        simpa using hne
      simp [List.lookup, this, ih hnd.2 h]

/-- Lookup helper: a key that does not occur in the association list is not
found by `List.lookup`. -/
theorem lookup_eq_none_of_not_mem {l : List (String × String)} {a : String}
    (h : a ∉ l.map Prod.fst) : l.lookup a = none := by
  induction l with
  | nil => rfl
  | cons hd tl ih =>
    simp only [List.map_cons, List.mem_cons, not_or] at h
    have : (a == hd.1) = false := by simpa using h.1
    simp [List.lookup, this, ih h.2]

/-- The region names the spec requires the registry to cover: the 50 US
states, the District of Columbia, and the five inhabited US territories,
spelled as the data source spells them. -/
def spec_required_regions : List String :=
  ["Alabama", "Alaska", "Arizona", "Arkansas", "California", "Colorado",
   "Connecticut", "Delaware", "Florida", "Georgia", "Hawaii", "Idaho",
   "Illinois", "Indiana", "Iowa", "Kansas", "Kentucky", "Louisiana",
   "Maine", "Maryland", "Massachusetts", "Michigan", "Minnesota",
   "Mississippi", "Missouri", "Montana", "Nebraska", "Nevada",
   "New Hampshire", "New Jersey", "New Mexico", "New York",
   "North Carolina", "North Dakota", "Ohio", "Oklahoma", "Oregon",
   "Pennsylvania", "Rhode Island", "South Carolina", "South Dakota",
   "Tennessee", "Texas", "Utah", "Vermont", "Virginia", "Washington",
   "West Virginia", "Wisconsin", "Wyoming", "District of Columbia",
   "American Samoa", "Guam", "Northern Mariana Islands", "Puerto Rico",
   "Virgin Islands, U.S."]

/-- Decidable check that a required name is a registry key mapped to a code of
two or three letters. -/
def goodCode (name : String) : Bool :=
  match STATE_CODES.lookup name with
  | some c => decide (2 ≤ c.length) && decide (c.length ≤ 3)
  | none => false

theorem all_goodCode : ∀ n ∈ spec_required_regions, goodCode n = true := by
  decide

/-- C9: the registry `STATE_CODES` is a fixed mapping (a module-level constant
built at import time) and every one of the 50 US state names, the District of
Columbia, and the five US territories is a key of it, mapped to a 2–3 letter
code. -/
theorem state_codes_cover_us_regions :
    ∀ name ∈ spec_required_regions,
      ∃ c, STATE_CODES.lookup name = some c ∧ 2 ≤ c.length ∧ c.length ≤ 3 := by
  intro name hmem
  have h := all_goodCode name hmem
  unfold goodCode at h
  cases hc : STATE_CODES.lookup name with
  | none => rw [hc] at h; simp at h
  | some c =>
    rw [hc] at h
    simp only [Bool.and_eq_true, decide_eq_true_eq] at h
    exact ⟨c, rfl, h.1, h.2⟩

/-- Witness for C9 at the concrete name "Puerto Rico". -/
theorem state_codes_cover_us_regions_witness :
    STATE_CODES.lookup "Puerto Rico" = some "PR" ∧
    2 ≤ "PR".length ∧ "PR".length ≤ 3 := by
  obtain ⟨c, hc, h2, h3⟩ :=
    state_codes_cover_us_regions "Puerto Rico" (by decide)
  have hpr : c = "PR" := by
    have hs : some c = some "PR" := by
      rw [← hc]
      decide
    exact Option.some_inj.1 hs
  subst hpr
  exact ⟨hc, h2, h3⟩

/-- C1 (counterexample): the column "1999-01-31" begins with a 4-digit year
prefix, yet `load_zhvi_data` does not treat it as a date column, because the
code tests `col.startswith("20")`, not "begins with a 4-digit year". -/
theorem date_columns_not_four_digit_year_at_1999 :
    ¬ (("1999-01-31" ∈ date_columns ["RegionName", "1999-01-31"]) ↔
        beginsWithFourDigitYear "1999-01-31" = true) := by
  decide

/-- C1 (amended): `load_zhvi_data` treats exactly those columns whose names
begin with the two characters "20" as date columns to reshape; every other
column is excluded from the reshape (the identifier column `RegionName` is
kept as the id variable). -/
theorem date_columns_iff_startswith_20 (cols : List String) (c : String) :
    c ∈ date_columns cols ↔ c ∈ cols ∧ startswith c "20" = true := by
  simp [date_columns, List.mem_filter]

/-- C8: `filter_data` with no states, no start date and no end date is the
identity on the table (up to the pandas copy). -/
theorem filter_data_no_constraints_identity (t : List Row) :
    filter_data t none none none = t := rfl

/-- C10: `filter_data` tests truthiness rather than None-ness, so an empty
state list, an empty start-date string, or an empty end-date string behaves
exactly like `None`: the corresponding constraint is not applied at all. -/
theorem filter_data_falsy_args_no_constraint (t : List Row)
    (states : Option (List String)) (sd ed : Option String) :
    filter_data t (some []) sd ed = filter_data t none sd ed ∧
    filter_data t states (some "") ed = filter_data t states none ed ∧
    filter_data t states sd (some "") = filter_data t states sd none :=
  ⟨rfl, rfl, rfl⟩

/-- C5: `add_state_codes` preserves every input row (same length, same
`state`/`date`/`value` at every position) and never raises: a state name that
is a registry key receives its mapped code, and a state name absent from the
registry receives the null marker `none` instead of an error. -/
theorem add_state_codes_total_lookup (t : List Row) :
    (add_state_codes t).length = t.length ∧
    ∀ i, i < t.length →
      ((add_state_codes t).getD i default).state = (t.getD i default).state ∧
      ((add_state_codes t).getD i default).date = (t.getD i default).date ∧
      ((add_state_codes t).getD i default).value = (t.getD i default).value ∧
      (∀ c, ((t.getD i default).state, c) ∈ STATE_CODES →
        ((add_state_codes t).getD i default).state_code = some c) ∧
      ((t.getD i default).state ∉ STATE_CODES.map Prod.fst →
        ((add_state_codes t).getD i default).state_code = none) := by
  constructor
  · simp [add_state_codes]
  · intro i hi
    have hlen : i < (add_state_codes t).length := by
      simpa [add_state_codes] using hi
    have hout : (add_state_codes t).getD i default =
        { state := (t.getD i default).state, date := (t.getD i default).date,
          value := (t.getD i default).value,
          state_code := STATE_CODES.lookup (t.getD i default).state } := by
      rw [List.getD_eq_getElem _ _ hlen, List.getD_eq_getElem _ _ hi]
      simp only [add_state_codes, List.getElem_map]
    refine ⟨by rw [hout], by rw [hout], by rw [hout], ?_, ?_⟩
    · intro c hc
      rw [hout]
      exact lookup_eq_some_of_mem (by decide) hc
    · intro hc
      rw [hout]
      exact lookup_eq_none_of_not_mem hc

/-- Witness for C5: on a concrete table, "California" receives "CA" and the
unknown name "Atlantis" receives the null marker. -/
theorem add_state_codes_total_lookup_witness :
    ((add_state_codes [⟨"California", 0, 1⟩, ⟨"Atlantis", 1, 2⟩]).getD 0
        default).state_code = some "CA" ∧
    ((add_state_codes [⟨"California", 0, 1⟩, ⟨"Atlantis", 1, 2⟩]).getD 1
        default).state_code = none :=
  ⟨((add_state_codes_total_lookup [⟨"California", 0, 1⟩, ⟨"Atlantis", 1, 2⟩]).2
      0 (by decide)).2.2.2.1 "CA" (by decide),
   ((add_state_codes_total_lookup [⟨"California", 0, 1⟩, ⟨"Atlantis", 1, 2⟩]).2
      1 (by decide)).2.2.2.2 (by decide)⟩

/-- C7: with a non-empty region list `R`, every row returned by `filter_data`
has its state in `R`, and conversely no row of the input whose state is in `R`
and whose date lies within the (truthy) bounds is dropped. -/
theorem filter_data_region_sound_complete (t : List Row) (R : List String)
    (sd ed : Option String) (hR : R ≠ []) :
    (∀ r ∈ filter_data t (some R) sd ed, r.state ∈ R) ∧
    (∀ r ∈ t, r.state ∈ R →
      (truthyStr sd = true → parseDate (sd.getD "") ≤ r.date) →
      (truthyStr ed = true → r.date ≤ parseDate (ed.getD "")) →
      r ∈ filter_data t (some R) sd ed) := by
  have hTruthy : truthyList (some R) = true := by
    cases R with
    | nil => exact absurd rfl hR
    | cons a l => simp [truthyList]
  constructor
  · intro r hr
    unfold filter_data at hr
    rw [hTruthy] at hr
    simp only [if_true] at hr
    rcases hsd : truthyStr sd <;> rcases hed : truthyStr ed <;>
      rw [hsd, hed] at hr <;>
      simp_all [List.mem_filter]
  · intro r hrt hrR hsdb hedb
    unfold filter_data
    rw [hTruthy]
    simp only [if_true]
    rcases hsd : truthyStr sd <;> rcases hed : truthyStr ed <;>
      simp_all [List.mem_filter]

/-- Witness for C7 at a concrete table and region list. -/
theorem filter_data_region_sound_complete_witness :
    (⟨"X", 5, 1⟩ : Row) ∈
      filter_data [⟨"X", 5, 1⟩, ⟨"Y", 5, 2⟩] (some ["X"]) none none :=
  (filter_data_region_sound_complete [⟨"X", 5, 1⟩, ⟨"Y", 5, 2⟩] ["X"]
      none none (by decide)).2 ⟨"X", 5, 1⟩ (by decide) (by decide)
    (fun h => absurd h (by decide)) (fun h => absurd h (by decide))

/-- Outcome of one entry of the float column computed by
`pct_change(periods=12) * 100`: a finite percentage, a signed infinity
(float division by zero), or null (pandas NaN: no comparison row, or 0/0). -/
inductive YoY where
  | null
  | fin (q : ℚ)
  | posInf
  | negInf
deriving DecidableEq, Inhabited

/-- A long-format record after `add_yoy_change` has run. -/
structure RowY where
  state : String
  date : Nat
  value : ℚ
  yoy_change : YoY
deriving DecidableEq, Inhabited

/-- IEEE-float outcome of `(v / w - 1) * 100` as `pct_change` computes it:
for `w = 0`, float division yields `+inf` when `v > 0`, `-inf` when `v < 0`,
and NaN (pandas null) when `v = 0`. -/
def pctChange (v w : ℚ) : YoY :=
  if w = 0 then
    if 0 < v then .posInf else if v < 0 then .negInf else .null
  else .fin ((v / w - 1) * 100)

/-- Embeds `add_yoy_change`:
`df["yoy_change"] = df.groupby("state")["median_home_value"].pct_change(periods=12) * 100`.
`groupby` keeps the original order of the rows inside each state group and
aligns the result with the original index, so the row at position `i` is
compared with the 12th prior row of the same state in occurrence order, and a
row with fewer than 12 prior same-state rows gets null. -/
def add_yoy_change (df : List Row) : List RowY :=
  (List.range df.length).map (fun i =>
    let r := df.getD i default
    let prior := (df.take i).filter (fun x => x.state == r.state)
    let y : YoY :=
      if 12 ≤ prior.length then
        pctChange r.value ((prior.getD (prior.length - 12) default).value)
      else .null
    { state := r.state, date := r.date, value := r.value, yoy_change := y })

/-- The subsequence of the rows of one state, in table order. -/
def regionSeq (s : String) (df : List Row) : List Row :=
  df.filter (fun r => r.state == s)

/-- The subsequence of the rows of one state after `add_yoy_change`. -/
def regionSeqY (s : String) (df : List RowY) : List RowY :=
  df.filter (fun r => r.state == s)

/-- The yoy value expected at position `j` of one state's subsequence. -/
def yoySeq (seq : List Row) (j : Nat) : YoY :=
  if 12 ≤ j then
    pctChange ((seq.getD j default).value) ((seq.getD (j - 12) default).value)
  else .null

/-- The canonical sort order of the long table: ascending by state, then by
date (what `sort_values(["state", "date"])` establishes after load). -/
abbrev sortedByStateDate (df : List Row) : Prop :=
  List.Pairwise
    (fun a b : Row => if a.state = b.state then a.date ≤ b.date else a.state < b.state)
    df

/-- Positions (in table order) of the rows matching a predicate. -/
def matchIdx (p : Row → Bool) (l : List Row) : List Nat :=
  (List.range l.length).filter (fun i => p (l.getD i default))

theorem matchIdx_cons (p : Row → Bool) (a : Row) (l : List Row) :
    matchIdx p (a :: l) =
      (if p a then [0] else []) ++ (matchIdx p l).map (· + 1) := by
  unfold matchIdx
  rw [List.length_cons, List.range_succ_eq_map, List.filter_cons]
  have hq : ∀ i ∈ List.range l.length,
      ((fun i => p ((a :: l).getD i default)) ∘ Nat.succ) i
        = (fun i => p (l.getD i default)) i := by
    intro i _
    simp
  rw [List.filter_map, List.filter_congr hq]
  by_cases hpa : p a = true <;> simp [hpa]

theorem matchIdx_spec (p : Row → Bool) (l : List Row) :
    (matchIdx p l).length = (l.filter p).length ∧
    ∀ j, j < (matchIdx p l).length →
      ((matchIdx p l).getD j 0 < l.length ∧
       l.getD ((matchIdx p l).getD j 0) default = (l.filter p).getD j default ∧
       (l.take ((matchIdx p l).getD j 0)).filter p = (l.filter p).take j) := by
  induction l with
  | nil => simp [matchIdx]
  | cons a l ih =>
    rw [matchIdx_cons, List.filter_cons]
    by_cases hpa : p a = true
    · simp only [hpa, if_true, List.singleton_append]
      refine ⟨by simpa using ih.1, ?_⟩
      intro j hj
      cases j with
      | zero => simp
      | succ j =>
        have hj' : j < (matchIdx p l).length := by
          simpa using hj
        obtain ⟨h1, h2, h3⟩ := ih.2 j hj'
        have hgd : ((0 : Nat) :: (matchIdx p l).map (· + 1)).getD (j + 1) 0
            = (matchIdx p l).getD j 0 + 1 := by
          rw [List.getD_cons_succ,
            List.getD_eq_getElem _ _ (by simpa using hj'),
            List.getD_eq_getElem _ _ hj', List.getElem_map]
        rw [hgd]
        refine ⟨by simpa using Nat.succ_lt_succ h1, ?_, ?_⟩
        · rw [List.getD_cons_succ]
          simpa using h2
        · rw [List.take_succ_cons, List.filter_cons, if_pos hpa, h3,
            List.take_succ_cons]
    · simp only [hpa, if_false, Bool.false_eq_true, List.nil_append]
      refine ⟨by simpa using ih.1, ?_⟩
      intro j hj
      have hj' : j < (matchIdx p l).length := by
        simpa using hj
      obtain ⟨h1, h2, h3⟩ := ih.2 j hj'
      have hgd : ((matchIdx p l).map (· + 1)).getD j 0
          = (matchIdx p l).getD j 0 + 1 := by
        rw [List.getD_eq_getElem _ _ (by simpa using hj'),
          List.getD_eq_getElem _ _ hj', List.getElem_map]
      rw [hgd]
      refine ⟨by simpa using Nat.succ_lt_succ h1, ?_, ?_⟩
      · rw [List.getD_cons_succ]
        exact h2
      · rw [List.take_succ_cons, List.filter_cons, if_neg hpa, h3]

theorem getD_map_of_lt {β : Type} (f : Nat → β) (l : List Nat) (j : Nat)
    (h : j < l.length) (d : β) : (l.map f).getD j d = f (l.getD j 0) := by
  rw [List.getD_eq_getElem _ _ (by simpa using h), List.getD_eq_getElem _ _ h,
    List.getElem_map]

theorem getD_take_of_lt (l : List Row) (k j : Nat) (hkj : k < j)
    (hk : k < l.length) (d : Row) : (l.take j).getD k d = l.getD k d := by
  rw [List.getD_eq_getElem _ _ (by simp [List.length_take]; omega),
    List.getD_eq_getElem _ _ hk, List.getElem_take]

/-- The state subsequence of the `add_yoy_change` output is the image of the
matching positions of the input table. -/
theorem regionSeqY_add_yoy_rep (t : List Row) (s : String) :
    regionSeqY s (add_yoy_change t) =
      (matchIdx (fun r => r.state == s) t).map (fun i =>
        let r := t.getD i default
        let prior := (t.take i).filter (fun x => x.state == r.state)
        let y : YoY :=
          if 12 ≤ prior.length then
            pctChange r.value ((prior.getD (prior.length - 12) default).value)
          else .null
        { state := r.state, date := r.date, value := r.value,
          yoy_change := y }) := by
  unfold regionSeqY add_yoy_change matchIdx
  rw [List.filter_map]
  rfl

theorem regionSeqY_add_yoy_length (t : List Row) (s : String) :
    (regionSeqY s (add_yoy_change t)).length = (regionSeq s t).length := by
  rw [regionSeqY_add_yoy_rep, List.length_map,
    (matchIdx_spec (fun r => r.state == s) t).1]
  rfl

/-- Master lemma: the row at position `j` of one state's subsequence of the
`add_yoy_change` output keeps the input fields of position `j` of that state's
input subsequence and carries `yoySeq` of that subsequence at `j` — pandas'
grouped `pct_change(12)` compares each row with the 12th prior row of its own
group. -/
theorem regionSeqY_add_yoy (t : List Row) (s : String) (j : Nat)
    (hj : j < (regionSeq s t).length) :
    (regionSeqY s (add_yoy_change t)).getD j default =
      { state := ((regionSeq s t).getD j default).state,
        date := ((regionSeq s t).getD j default).date,
        value := ((regionSeq s t).getD j default).value,
        yoy_change := yoySeq (regionSeq s t) j } := by
  have hseq : regionSeq s t = t.filter (fun r => r.state == s) := rfl
  have hjm : j < (matchIdx (fun r => r.state == s) t).length := by
    rw [(matchIdx_spec (fun r => r.state == s) t).1, ← hseq]
    exact hj
  obtain ⟨hilt, hgd, htake⟩ := (matchIdx_spec (fun r => r.state == s) t).2 j hjm
  have hs : ((regionSeq s t).getD j default).state = s := by
    have hmem : (regionSeq s t).getD j default ∈ regionSeq s t := by
      rw [List.getD_eq_getElem _ _ hj]
      exact List.getElem_mem _
    have := (List.mem_filter.1 (hseq ▸ hmem)).2
    simpa using this
  rw [regionSeqY_add_yoy_rep, getD_map_of_lt _ _ _ hjm]
  simp only [← hseq] at hgd htake
  simp only [hgd, hs, htake]
  have hlen : ((regionSeq s t).take j).length = j := by
    simp [List.length_take]
    omega
  rw [hlen]
  unfold yoySeq
  by_cases h12 : 12 ≤ j
  · rw [if_pos h12, if_pos h12]
    have hj12 : j - 12 < j := by omega
    rw [getD_take_of_lt _ _ _ hj12 (by omega) _]
  · rw [if_neg h12, if_neg h12]

/-- C2: within each state's chronologically sorted subsequence, the
`yoy_change` computed by `add_yoy_change` at position `j ≥ 12` is the
percentage change relative to the record exactly 12 positions earlier in that
subsequence: `(value_t - value_(t-12)) / value_(t-12) * 100` (stated for a
non-zero comparison value, where the formula is defined). -/
theorem add_yoy_change_formula (t : List Row) (s : String) (j : Nat)
    (hsort : sortedByStateDate t) (h12 : 12 ≤ j)
    (hj : j < (regionSeq s t).length)
    (hw : ((regionSeq s t).getD (j - 12) default).value ≠ 0) :
    ((regionSeqY s (add_yoy_change t)).getD j default).yoy_change =
      YoY.fin ((((regionSeq s t).getD j default).value -
          ((regionSeq s t).getD (j - 12) default).value) /
        ((regionSeq s t).getD (j - 12) default).value * 100) := by
  rw [regionSeqY_add_yoy t s j hj]
  show yoySeq (regionSeq s t) j = _
  rw [yoySeq, if_pos h12, pctChange, if_neg hw]
  congr 1
  rw [sub_div, div_self hw]

/-- Concrete sorted single-state table with 13 monthly records, used to
witness the YoY theorems. -/
def yoyExample : List Row :=
  [⟨"X", 0, 100⟩, ⟨"X", 1, 101⟩, ⟨"X", 2, 102⟩, ⟨"X", 3, 103⟩,
   ⟨"X", 4, 104⟩, ⟨"X", 5, 105⟩, ⟨"X", 6, 106⟩, ⟨"X", 7, 107⟩,
   ⟨"X", 8, 108⟩, ⟨"X", 9, 109⟩, ⟨"X", 10, 110⟩, ⟨"X", 11, 111⟩,
   ⟨"X", 12, 110⟩]

/-- Witness for C2 at the concrete table `yoyExample`, position 12. -/
theorem add_yoy_change_formula_witness :
    sortedByStateDate yoyExample ∧ 12 ≤ 12 ∧
    12 < (regionSeq "X" yoyExample).length ∧
    ((regionSeq "X" yoyExample).getD (12 - 12) default).value ≠ 0 ∧
    ((regionSeqY "X" (add_yoy_change yoyExample)).getD 12 default).yoy_change =
      YoY.fin ((((regionSeq "X" yoyExample).getD 12 default).value -
          ((regionSeq "X" yoyExample).getD (12 - 12) default).value) /
        ((regionSeq "X" yoyExample).getD (12 - 12) default).value * 100) :=
  ⟨by decide, by decide, by decide, by decide,
   add_yoy_change_formula yoyExample "X" 12 (by decide) (by decide)
     (by decide) (by decide)⟩

/-- C4: `add_yoy_change` returns exactly as many rows as its input, and within
each state the first 12 rows (in the table's sort order) carry a null
`yoy_change`. -/
theorem add_yoy_change_length_and_first_twelve (t : List Row)
    (hsort : sortedByStateDate t) :
    (add_yoy_change t).length = t.length ∧
    ∀ s j, j < 12 → j < (regionSeqY s (add_yoy_change t)).length →
      ((regionSeqY s (add_yoy_change t)).getD j default).yoy_change =
        YoY.null := by
  refine ⟨by simp [add_yoy_change], ?_⟩
  intro s j hj12 hjl
  rw [regionSeqY_add_yoy_length] at hjl
  rw [regionSeqY_add_yoy t s j hjl]
  show yoySeq (regionSeq s t) j = _
  rw [yoySeq, if_neg (by omega)]

/-- Witness for C4 at the concrete table `yoyExample`. -/
theorem add_yoy_change_length_and_first_twelve_witness :
    (add_yoy_change yoyExample).length = yoyExample.length ∧
    ((regionSeqY "X" (add_yoy_change yoyExample)).getD 0 default).yoy_change =
      YoY.null :=
  ⟨(add_yoy_change_length_and_first_twelve yoyExample (by decide)).1,
   (add_yoy_change_length_and_first_twelve yoyExample (by decide)).2 "X" 0
     (by decide) (by decide)⟩

/-- Concrete sorted single-state table whose first value is exactly zero, so
the record 12 positions later divides by zero. -/
def zeroDenomExample : List Row :=
  [⟨"X", 0, 0⟩, ⟨"X", 1, 1⟩, ⟨"X", 2, 2⟩, ⟨"X", 3, 3⟩,
   ⟨"X", 4, 4⟩, ⟨"X", 5, 5⟩, ⟨"X", 6, 6⟩, ⟨"X", 7, 7⟩,
   ⟨"X", 8, 8⟩, ⟨"X", 9, 9⟩, ⟨"X", 10, 10⟩, ⟨"X", 11, 11⟩,
   ⟨"X", 12, 5⟩]

/-- C6 (counterexample): on `zeroDenomExample`, the value 12 positions earlier
is exactly zero, yet `add_yoy_change` neither raises (it is a total
transformation) nor yields a null `yoy_change`: it produces the non-finite
float `+inf`, so neither of the two policies the claim allows is what the
code does. -/
theorem yoy_zero_denominator_not_null :
    ((regionSeq "X" zeroDenomExample).getD 0 default).value = 0 ∧
    ((regionSeqY "X" (add_yoy_change zeroDenomExample)).getD 12
        default).yoy_change = YoY.posInf ∧
    (YoY.posInf ≠ YoY.null) := by
  refine ⟨by decide, ?_, by decide⟩
  rw [regionSeqY_add_yoy zeroDenomExample "X" 12 (by decide)]
  show yoySeq (regionSeq "X" zeroDenomExample) 12 = _
  rw [yoySeq, if_pos (by decide), pctChange,
    if_pos (by decide : ((regionSeq "X" zeroDenomExample).getD (12 - 12)
      default).value = 0), if_pos (by decide)]

/-- C6 (amended): the code follows the lenient float semantics uniformly: a
comparison value of exactly zero 12 positions earlier yields a non-finite
`+inf` when the current value is positive, `-inf` when it is negative, and
null (NaN, from 0/0) when it is zero — never an exception. -/
theorem yoy_zero_denominator_nonfinite (t : List Row) (s : String) (j : Nat)
    (h12 : 12 ≤ j) (hj : j < (regionSeq s t).length)
    (hw : ((regionSeq s t).getD (j - 12) default).value = 0) :
    ((regionSeqY s (add_yoy_change t)).getD j default).yoy_change =
      (if 0 < ((regionSeq s t).getD j default).value then YoY.posInf
       else if ((regionSeq s t).getD j default).value < 0 then YoY.negInf
       else YoY.null) := by
  rw [regionSeqY_add_yoy t s j hj]
  show yoySeq (regionSeq s t) j = _
  rw [yoySeq, if_pos h12, pctChange, if_pos hw]

/-- Witness for C6's amended theorem at `zeroDenomExample`, position 12. -/
theorem yoy_zero_denominator_nonfinite_witness :
    12 ≤ 12 ∧ 12 < (regionSeq "X" zeroDenomExample).length ∧
    ((regionSeq "X" zeroDenomExample).getD (12 - 12) default).value = 0 ∧
    ((regionSeqY "X" (add_yoy_change zeroDenomExample)).getD 12
        default).yoy_change =
      (if 0 < ((regionSeq "X" zeroDenomExample).getD 12 default).value
       then YoY.posInf
       else if ((regionSeq "X" zeroDenomExample).getD 12 default).value < 0
       then YoY.negInf
       else YoY.null) :=
  ⟨by decide, by decide, by decide,
   yoy_zero_denominator_nonfinite zeroDenomExample "X" 12 (by decide)
     (by decide) (by decide)⟩

/-- A record of the melted long table before `dropna`: the
`median_home_value` cell is still nullable. -/
structure MRow where
  state : String
  date : Nat
  value : Option ℚ
deriving DecidableEq, Inhabited

/-- One row of the raw wide CSV: the `RegionName` cell plus the cells of the
remaining columns, aligned with `RawTable.columns`. -/
structure RawRow where
  regionName : String
  cells : List (Option ℚ)
deriving DecidableEq, Inhabited

/-- The raw wide CSV as read by `pd.read_csv`: the identifier column
`RegionName` (held in each row) plus the remaining columns with their names.
Only date-column cells are ever read by the loader, so cells are modelled
uniformly as nullable numbers. -/
structure RawTable where
  columns : List String
  rows : List RawRow
deriving DecidableEq

/-- Embeds `df.melt(id_vars=["RegionName"], value_vars=date_columns, ...)`
followed by the rename to `state` and `pd.to_datetime` on the `date` column:
one record per (date column, row) pair, column-major as pandas `melt` emits
them. -/
def melt (r : RawTable) : List MRow :=
  (r.columns.enum.filter (fun ci => startswith ci.2 "20")).flatMap
    (fun ci => r.rows.map (fun row =>
      { state := row.regionName, date := parseDate ci.2,
        value := row.cells.getD ci.1 none }))

/-- Embeds `df_long.dropna(subset=["median_home_value"])`. -/
def dropna (l : List MRow) : List MRow :=
  l.filter (fun m => !m.value.isNone)

/-- The (state, date) key order of `sort_values(["state", "date"])`. -/
def mrowLe (a b : MRow) : Prop :=
  if a.state = b.state then a.date ≤ b.date else a.state < b.state

instance : DecidableRel mrowLe := fun a b => by
  unfold mrowLe
  infer_instance

/-- Embeds the pure core of `load_zhvi_data` on an already-read raw table:
melt to long format, parse the dates, drop rows with a null value, and sort
ascending by (state, date).  `reset_index(drop=True)` only renumbers the
positional index, of which a list keeps no separate notion. -/
def load_zhvi_data (r : RawTable) : List MRow :=
  List.insertionSort mrowLe (dropna (melt r))

/-- An ISO "YYYY-MM-DD" date string: ten characters, digits at the date
positions and dashes at positions 4 and 7 — the shape of the raw CSV's month
column names, e.g. "2004-01-31". -/
def isISODate (s : String) : Bool :=
  match s.data with
  | [y1, y2, y3, y4, c1, m1, m2, c2, d1, d2] =>
    y1.isDigit && y2.isDigit && y3.isDigit && y4.isDigit && (c1 == '-') &&
    m1.isDigit && m2.isDigit && (c2 == '-') && d1.isDigit && d2.isDigit
  | _ => false

theorem isDigit_toNat_bounds {c : Char} (h : c.isDigit = true) :
    48 ≤ c.toNat ∧ c.toNat ≤ 57 := by
  simp [Char.isDigit] at h
  exact h

theorem char_eq_of_toNat_eq {x y : Char} (h : x.toNat = y.toNat) : x = y :=
  Char.ext (UInt32.ext h)

/-- On ISO "YYYY-MM-DD" strings, `parseDate` is injective: two distinct ISO
column names parse to distinct timestamps (the eight digits determine the
string, since the dashes sit at fixed positions). -/
theorem parseDate_inj_iso {a b : String} (ha : isISODate a = true)
    (hb : isISODate b = true) (hab : parseDate a = parseDate b) : a = b := by
  unfold isISODate at ha hb
  unfold parseDate at hab
  split at ha
  · rename_i ya1 ya2 ya3 ya4 ca1 ma1 ma2 ca2 da1 da2 heqa
    split at hb
    · rename_i yb1 yb2 yb3 yb4 cb1 mb1 mb2 cb2 db1 db2 heqb
      simp only [Bool.and_eq_true, beq_iff_eq] at ha hb
      obtain ⟨⟨⟨⟨⟨⟨⟨⟨⟨hya1, hya2⟩, hya3⟩, hya4⟩, hca1⟩, hma1⟩, hma2⟩, hca2⟩,
        hda1⟩, hda2⟩ := ha
      obtain ⟨⟨⟨⟨⟨⟨⟨⟨⟨hyb1, hyb2⟩, hyb3⟩, hyb4⟩, hcb1⟩, hmb1⟩, hmb2⟩, hcb2⟩,
        hdb1⟩, hdb2⟩ := hb
      subst hca1 hca2 hcb1 hcb2
      rw [heqa, heqb] at hab
      simp only [List.filter_cons, hya1, hya2, hya3, hya4, hma1, hma2, hda1,
        hda2, hyb1, hyb2, hyb3, hyb4, hmb1, hmb2, hdb1, hdb2,
        show Char.isDigit '-' = false from by decide, if_true, if_false,
        Bool.false_eq_true, List.filter_nil, List.foldl] at hab
      obtain ⟨ba1, ba1'⟩ := isDigit_toNat_bounds hya1
      obtain ⟨ba2, ba2'⟩ := isDigit_toNat_bounds hya2
      obtain ⟨ba3, ba3'⟩ := isDigit_toNat_bounds hya3
      obtain ⟨ba4, ba4'⟩ := isDigit_toNat_bounds hya4
      obtain ⟨ba5, ba5'⟩ := isDigit_toNat_bounds hma1
      obtain ⟨ba6, ba6'⟩ := isDigit_toNat_bounds hma2
      obtain ⟨ba7, ba7'⟩ := isDigit_toNat_bounds hda1
      obtain ⟨ba8, ba8'⟩ := isDigit_toNat_bounds hda2
      obtain ⟨bb1, bb1'⟩ := isDigit_toNat_bounds hyb1
      obtain ⟨bb2, bb2'⟩ := isDigit_toNat_bounds hyb2
      obtain ⟨bb3, bb3'⟩ := isDigit_toNat_bounds hyb3
      obtain ⟨bb4, bb4'⟩ := isDigit_toNat_bounds hyb4
      obtain ⟨bb5, bb5'⟩ := isDigit_toNat_bounds hmb1
      obtain ⟨bb6, bb6'⟩ := isDigit_toNat_bounds hmb2
      obtain ⟨bb7, bb7'⟩ := isDigit_toNat_bounds hdb1
      obtain ⟨bb8, bb8'⟩ := isDigit_toNat_bounds hdb2
      have e1 : ya1 = yb1 := char_eq_of_toNat_eq (by omega)
      have e2 : ya2 = yb2 := char_eq_of_toNat_eq (by omega)
      have e3 : ya3 = yb3 := char_eq_of_toNat_eq (by omega)
      have e4 : ya4 = yb4 := char_eq_of_toNat_eq (by omega)
      have e5 : ma1 = mb1 := char_eq_of_toNat_eq (by omega)
      have e6 : ma2 = mb2 := char_eq_of_toNat_eq (by omega)
      have e7 : da1 = db1 := char_eq_of_toNat_eq (by omega)
      have e8 : da2 = db2 := char_eq_of_toNat_eq (by omega)
      apply String.ext
      rw [heqa, heqb, e1, e2, e3, e4, e5, e6, e7, e8]
    · exact absurd hb (by simp)
  · exact absurd ha (by simp)

/-- C3: for a valid raw input — one row per region (pairwise distinct
`RegionName` cells) and date columns bearing distinct ISO "YYYY-MM-DD" names —
the long table produced by `load_zhvi_data` contains no duplicate
(state, date) pair and no row with a null value. -/
theorem load_zhvi_data_nodup_nonnull (r : RawTable)
    (hreg : (r.rows.map RawRow.regionName).Nodup)
    (hiso : ∀ c ∈ r.columns, startswith c "20" = true → isISODate c = true)
    (hnd : (date_columns r.columns).Nodup) :
    ((load_zhvi_data r).map (fun m : MRow => (m.state, m.date))).Nodup ∧
    ∀ m ∈ load_zhvi_data r, m.value ≠ none := by
  have hperm : (load_zhvi_data r).Perm (dropna (melt r)) :=
    List.perm_insertionSort _ _
  constructor
  · have hsnd : (r.columns.enum.filter
        (fun ci => startswith ci.2 "20")).map Prod.snd
        = date_columns r.columns := by
      have h1 := List.filter_map (p := fun c => startswith c "20")
        Prod.snd r.columns.enum
      rw [List.enum_map_snd] at h1
      exact h1.symm
    have hmelt : ((melt r).map (fun m : MRow => (m.state, m.date))).Nodup := by
      unfold melt
      rw [List.map_flatMap, List.nodup_flatMap]
      constructor
      · intro ci _
        rw [List.map_map]
        have hmapped : (List.map ((fun n => (n, parseDate ci.2)) ∘
            RawRow.regionName) r.rows).Nodup := by
          rw [← List.map_map]
          exact hreg.map (fun x y hxy => congrArg Prod.fst hxy)
        exact hmapped
      · have h2 : (r.columns.enum.filter
            (fun ci => startswith ci.2 "20")).Pairwise
            (fun x y => x.2 ≠ y.2) := by
          have h3 := hnd
          rw [← hsnd] at h3
          exact List.pairwise_map.1 h3
        have hpw : (r.columns.enum.filter
            (fun ci => startswith ci.2 "20")).Pairwise
            (fun x y => parseDate x.2 ≠ parseDate y.2) := by
          refine List.Pairwise.imp_of_mem (fun {x y} hx hy hne hparse => ?_) h2
          apply hne
          have hxcol : x.2 ∈ r.columns := by
            have hxe : x ∈ r.columns.enum := List.mem_of_mem_filter hx
            have hx2 : x.2 ∈ r.columns.enum.map Prod.snd :=
              List.mem_map.2 ⟨x, hxe, rfl⟩
            rwa [List.enum_map_snd] at hx2
          have hycol : y.2 ∈ r.columns := by
            have hye : y ∈ r.columns.enum := List.mem_of_mem_filter hy
            have hy2 : y.2 ∈ r.columns.enum.map Prod.snd :=
              List.mem_map.2 ⟨y, hye, rfl⟩
            rwa [List.enum_map_snd] at hy2
          exact parseDate_inj_iso
            (hiso _ hxcol (List.mem_filter.1 hx).2)
            (hiso _ hycol (List.mem_filter.1 hy).2) hparse
        refine hpw.imp ?_
        intro x y hne
        intro pnd hp1 hp2
        simp only [List.map_map, List.mem_map] at hp1 hp2
        obtain ⟨r1, _, hr1⟩ := hp1
        obtain ⟨r2, _, hr2⟩ := hp2
        apply hne
        have hx2 : parseDate x.2 = pnd.2 := congrArg Prod.snd hr1
        have hy2 : parseDate y.2 = pnd.2 := congrArg Prod.snd hr2
        rw [hx2, hy2]
    have hpairs : ((dropna (melt r)).map
        (fun m : MRow => (m.state, m.date))).Nodup :=
      List.Nodup.sublist ((List.filter_sublist _).map _) hmelt
    exact ((hperm.map _).nodup_iff).2 hpairs
  · intro m hm
    have hm' : m ∈ dropna (melt r) := hperm.subset hm
    have hv := (List.mem_filter.1 hm').2
    intro hn
    rw [hn] at hv
    simp at hv

/-- Concrete raw wide table used to witness the load theorem: one metadata
column, two ISO date columns, one region, one missing cell. -/
def rawExample : RawTable :=
  { columns := ["SizeRank", "2020-01-31", "2020-02-29"],
    rows := [⟨"Alpha", [some 1, some 100, none]⟩] }

/-- Witness for C3 at the concrete raw table `rawExample`. -/
theorem load_zhvi_data_nodup_nonnull_witness :
    ((load_zhvi_data rawExample).map
      (fun m : MRow => (m.state, m.date))).Nodup ∧
    (⟨"Alpha", parseDate "2020-01-31", some 100⟩ : MRow).value ≠ none :=
  ⟨(load_zhvi_data_nodup_nonnull rawExample (by decide) (by decide)
      (by decide)).1,
   (load_zhvi_data_nodup_nonnull rawExample (by decide) (by decide)
      (by decide)).2 ⟨"Alpha", parseDate "2020-01-31", some 100⟩ (by decide)⟩
